import Mathlib

/-!
Shallow embedding of `src/to-do-icp-backend/src/lib.rs`, a task store
for an Internet Computer canister.  The canister state is a
`HashMap<u64, Task>` plus a `u64` next-id counter; we model the map as an
association list (insertion replaces an existing key, lookup returns the
first match, removal drops the key), `u64` values as `Nat`, and the
opaque `Principal` as `Nat`.  Each `#[update]` / `#[query]` function
becomes a pure function over an explicit `AppState`; the ambient clock
`ic_cdk::api::time()` (nanoseconds) and `ic_cdk::caller()` become
explicit arguments.
-/

namespace Todo

/-- RepeatCycle enum for task repetition (lib.rs lines 14-20). -/
inductive RepeatCycle where
  | Daily
  | Weekly
  | Monthly
  | Yearly
deriving DecidableEq, Repr

/-- Opaque principal identifier (candid `Principal`), modelled as `Nat`. -/
abbrev Principal := Nat

/-- The Task struct (lib.rs lines 23-33). -/
structure Task where
  id : Nat
  title : String
  is_completed : Bool
  is_important : Bool
  due_date : Option Nat
  reminder : Option Nat
  «repeat» : Option RepeatCycle
  assigned_to : Option Principal
deriving DecidableEq, Repr

/-- Input for adding a task (lib.rs lines 36-44). -/
structure TaskInput where
  title : String
  is_important : Option Bool
  due_date : Option Nat
  reminder : Option Nat
  «repeat» : Option RepeatCycle
  assigned_to : Option Principal
deriving DecidableEq, Repr

/-- Input for updating a task (lib.rs lines 75-84): two-level options,
`some none` clears the underlying optional field. -/
structure UpdateTaskInput where
  title : Option String
  is_completed : Option Bool
  is_important : Option Bool
  due_date : Option (Option Nat)
  reminder : Option (Option Nat)
  «repeat» : Option (Option RepeatCycle)
  assigned_to : Option (Option Principal)
deriving DecidableEq, Repr

/-- The task map, modelling `HashMap<u64, Task>` as an association list. -/
abbrev TaskMap := List (Nat × Task)

/-- `HashMap::insert`: replace the entry for `k` if present, else add it. -/
def mapInsert (k : Nat) (v : Task) : TaskMap → TaskMap
  | [] => [(k, v)]
  | (k', v') :: rest =>
      if k = k' then (k, v) :: rest else (k', v') :: mapInsert k v rest

/-- `HashMap::get`: first entry with key `k`, if any. -/
def mapGet (k : Nat) : TaskMap → Option Task
  | [] => none
  | (k', v') :: rest => if k = k' then some v' else mapGet k rest

/-- `HashMap::remove`: drop the entry with key `k`. -/
def mapRemove (k : Nat) (m : TaskMap) : TaskMap :=
  m.filter (fun p => p.1 ≠ k)

/-- `HashMap::values`: the stored tasks. -/
def values (m : TaskMap) : List Task :=
  m.map Prod.snd

/-- Canister state: the `TASKS` map and the `NEXT_ID` counter
(lib.rs lines 8-11). -/
structure AppState where
  TASKS : TaskMap
  NEXT_ID : Nat
deriving DecidableEq, Repr

/-- The initial canister state: empty map, counter 0. -/
def initState : AppState := { TASKS := [], NEXT_ID := 0 }

/-- `add_task` (lib.rs lines 48-72): take the counter value as the new
id, bump the counter, insert the new task, return the id. -/
def add_task (input : TaskInput) (s : AppState) : Nat × AppState :=
  let id := s.NEXT_ID
  let task : Task :=
    { id := id
      title := input.title
      is_completed := false
      is_important := input.is_important.getD false
      due_date := input.due_date
      reminder := input.reminder
      «repeat» := input.«repeat»
      assigned_to := input.assigned_to }
  (id, { TASKS := mapInsert id task s.TASKS, NEXT_ID := s.NEXT_ID + 1 })

/-- The field-by-field patch applied by `update_task` to the found task
(lib.rs lines 94-114). -/
def applyUpdate (input : UpdateTaskInput) (task : Task) : Task :=
  let task := match input.title with
    | some title => { task with title := title }
    | none => task
  let task := match input.is_completed with
    | some is_completed => { task with is_completed := is_completed }
    | none => task
  let task := match input.is_important with
    | some is_important => { task with is_important := is_important }
    | none => task
  let task := match input.due_date with
    | some due_date => { task with due_date := due_date }
    | none => task
  let task := match input.reminder with
    | some reminder => { task with reminder := reminder }
    | none => task
  let task := match input.«repeat» with
    | some r => { task with «repeat» := r }
    | none => task
  let task := match input.assigned_to with
    | some assigned_to => { task with assigned_to := assigned_to }
    | none => task
  task

/-- `update_task` (lib.rs lines 88-118): look the task up; if absent
return `Err("Task not found")`, else apply the patch in place. -/
def update_task (id : Nat) (input : UpdateTaskInput) (s : AppState) :
    Except String Unit × AppState :=
  match mapGet id s.TASKS with
  | none => (Except.error "Task not found", s)
  | some task =>
      (Except.ok (),
        { s with TASKS := mapInsert id (applyUpdate input task) s.TASKS })

/-- `delete_task` (lib.rs lines 246-255): remove the entry; report
`Err("Task not found")` when nothing was removed. -/
def delete_task (id : Nat) (s : AppState) : Except String Unit × AppState :=
  let removed := mapGet id s.TASKS
  let s' := { s with TASKS := mapRemove id s.TASKS }
  if removed.isNone then (Except.error "Task not found", s')
  else (Except.ok (), s')

/-- `get_all_tasks` (lib.rs lines 121-125). -/
def get_all_tasks (s : AppState) : List Task :=
  values s.TASKS

/-- `get_active_tasks` (lib.rs lines 129-137). -/
def get_active_tasks (s : AppState) : List Task :=
  (values s.TASKS).filter (fun task => !task.is_completed)

/-- `get_completed_tasks` (lib.rs lines 141-149). -/
def get_completed_tasks (s : AppState) : List Task :=
  (values s.TASKS).filter (fun task => task.is_completed)

/-- `get_today_tasks` (lib.rs lines 153-173); `time_ns` is the value of
`ic_cdk::api::time()` in nanoseconds. -/
def get_today_tasks (time_ns : Nat) (s : AppState) : List Task :=
  let now_seconds := time_ns / 1000000000
  let start_of_day := now_seconds - (now_seconds % 86400)
  let end_of_day := start_of_day + 86399
  (values s.TASKS).filter (fun task =>
    task.due_date.elim false (fun due_date =>
      decide (start_of_day ≤ due_date ∧ due_date ≤ end_of_day)))

/-- `get_important_tasks` (lib.rs lines 177-185). -/
def get_important_tasks (s : AppState) : List Task :=
  (values s.TASKS).filter (fun task => task.is_important)

/-- `get_planned_tasks` (lib.rs lines 189-202). -/
def get_planned_tasks (time_ns : Nat) (s : AppState) : List Task :=
  let now_seconds := time_ns / 1000000000
  (values s.TASKS).filter (fun task =>
    task.due_date.elim false (fun due_date => decide (now_seconds < due_date)))

/-- `get_assigned_tasks` (lib.rs lines 206-221); `caller` is the value of
`ic_cdk::caller()`. -/
def get_assigned_tasks (caller : Principal) (s : AppState) : List Task :=
  (values s.TASKS).filter (fun task =>
    task.assigned_to.elim false (fun assigned_principal =>
      decide (assigned_principal = caller)))

/-- `count_today_tasks` (lib.rs lines 225-241): the same day-window
filter as `get_today_tasks`, counted instead of collected. -/
def count_today_tasks (time_ns : Nat) (s : AppState) : Nat :=
  let now_seconds := time_ns / 1000000000
  let start_of_day := now_seconds - (now_seconds % 86400)
  let end_of_day := start_of_day + 86399
  ((values s.TASKS).filter (fun task =>
    task.due_date.elim false (fun due_date =>
      decide (start_of_day ≤ due_date ∧ due_date ≤ end_of_day)))).length

/-- One externally visible mutating call on the canister. -/
inductive Op where
  | add (input : TaskInput)
  | upd (id : Nat) (input : UpdateTaskInput)
  | del (id : Nat)

/-- The state after one mutating call (queries do not change state). -/
def stepOp : Op → AppState → AppState
  | .add input, s => (add_task input s).2
  | .upd id input, s => (update_task id input s).2
  | .del id, s => (delete_task id s).2

/-- The state after a sequence of mutating calls. -/
def runOps : List Op → AppState → AppState
  | [], s => s
  | op :: ops, s => runOps ops (stepOp op s)

/-- The ids returned by the `add_task` calls of a sequence, in call
order. -/
def addedIds : List Op → AppState → List Nat
  | [], _ => []
  | .add input :: ops, s =>
      (add_task input s).1 :: addedIds ops (add_task input s).2
  | .upd id input :: ops, s => addedIds ops (update_task id input s).2
  | .del id :: ops, s => addedIds ops (delete_task id s).2

/-- The update input with every field omitted. -/
def emptyUpdate : UpdateTaskInput :=
  { title := none, is_completed := none, is_important := none,
    due_date := none, reminder := none, «repeat» := none,
    assigned_to := none }

/-- Key-correctness invariant: every task is stored under its own id. -/
def WF (s : AppState) : Prop :=
  ∀ p ∈ s.TASKS, p.2.id = p.1

instance : DecidablePred WF := fun s =>
  inferInstanceAs (Decidable (∀ p ∈ s.TASKS, p.2.id = p.1))

section MapLemmas

theorem mapGet_mapInsert_self (k : Nat) (v : Task) (m : TaskMap) :
    mapGet k (mapInsert k v m) = some v := by
  induction m with
  | nil => simp [mapInsert, mapGet]
  | cons p rest ih =>
      obtain ⟨k', v'⟩ := p
      by_cases h : k = k' <;> simp [mapInsert, mapGet, h, ih]

theorem mapGet_mapInsert_ne (k j : Nat) (v : Task) (m : TaskMap)
    (h : j ≠ k) : mapGet j (mapInsert k v m) = mapGet j m := by
  induction m with
  | nil => simp [mapInsert, mapGet, h]
  | cons p rest ih =>
      obtain ⟨k', v'⟩ := p
      by_cases hk : k = k'
      · subst hk; simp [mapInsert, mapGet, h]
      · by_cases hj : j = k' <;> simp [mapInsert, mapGet, hk, hj, ih]

theorem mapInsert_same (k : Nat) (v : Task) (m : TaskMap)
    (h : mapGet k m = some v) : mapInsert k v m = m := by
  induction m with
  | nil => simp [mapGet] at h
  | cons p rest ih =>
      obtain ⟨k', v'⟩ := p
      by_cases hk : k = k'
      · subst hk
        simp [mapGet] at h
        simp [mapInsert, h]
      · simp [mapGet, hk] at h
        simp [mapInsert, hk, ih h]

theorem mapRemove_of_not_mem (k : Nat) (m : TaskMap)
    (h : mapGet k m = none) : mapRemove k m = m := by
  induction m with
  | nil => rfl
  | cons p rest ih =>
      obtain ⟨k', v'⟩ := p
      by_cases hk : k = k'
      · subst hk; simp [mapGet] at h
      · simp [mapGet, hk] at h
        simp [mapRemove] at ih ⊢
        exact ⟨fun hk' => hk hk'.symm, ih h⟩

theorem mapGet_mapRemove_self (k : Nat) (m : TaskMap) :
    mapGet k (mapRemove k m) = none := by
  induction m with
  | nil => rfl
  | cons p rest ih =>
      obtain ⟨k', v'⟩ := p
      by_cases hk : k' = k
      · simp [mapRemove, mapGet, hk] at ih ⊢
        exact ih
      · simp [mapRemove, mapGet, hk, Ne.symm hk] at ih ⊢
        exact ih

theorem mapGet_mapRemove_ne (k j : Nat) (m : TaskMap) (h : j ≠ k) :
    mapGet j (mapRemove k m) = mapGet j m := by
  induction m with
  | nil => rfl
  | cons p rest ih =>
      obtain ⟨k', v'⟩ := p
      by_cases hk : k' = k
      · subst hk
        simp [mapRemove, mapGet, h]
        simpa [mapRemove] using ih
      · by_cases hj : j = k'
        · simp [mapRemove, mapGet, hk, hj]
        · simp [mapRemove, mapGet, hk, hj]
          simpa [mapRemove] using ih

end MapLemmas

section StepLemmas

theorem add_task_fst (input : TaskInput) (s : AppState) :
    (add_task input s).1 = s.NEXT_ID := rfl

theorem add_task_NEXT_ID (input : TaskInput) (s : AppState) :
    (add_task input s).2.NEXT_ID = s.NEXT_ID + 1 := rfl

theorem update_task_NEXT_ID (id : Nat) (input : UpdateTaskInput)
    (s : AppState) : (update_task id input s).2.NEXT_ID = s.NEXT_ID := by
  cases h : mapGet id s.TASKS <;> simp [update_task, h]

theorem delete_task_NEXT_ID (id : Nat) (s : AppState) :
    (delete_task id s).2.NEXT_ID = s.NEXT_ID := by
  cases h : (mapGet id s.TASKS).isNone <;> simp [delete_task, h]

theorem stepOp_NEXT_ID_mono (op : Op) (s : AppState) :
    s.NEXT_ID ≤ (stepOp op s).NEXT_ID := by
  cases op with
  | add input =>
      rw [stepOp, add_task_NEXT_ID]
      omega
  | upd id input => simp [stepOp, update_task_NEXT_ID]
  | del id => simp [stepOp, delete_task_NEXT_ID]

theorem addedIds_lower (ops : List Op) :
    ∀ s : AppState, ∀ x ∈ addedIds ops s, s.NEXT_ID ≤ x := by
  induction ops with
  | nil => intro s x hx; simp [addedIds] at hx
  | cons op ops ih =>
      intro s x hx
      cases op with
      | add input =>
          simp [addedIds] at hx
          rcases hx with hx | hx

          · simp [hx, add_task_fst]
          · have := ih (add_task input s).2 x hx
            rw [add_task_NEXT_ID] at this
            omega
      | upd id input =>
          have := ih (update_task id input s).2 x (by simpa [addedIds] using hx)
          rwa [update_task_NEXT_ID] at this
      | del id =>
          have := ih (delete_task id s).2 x (by simpa [addedIds] using hx)
          rwa [delete_task_NEXT_ID] at this

theorem addedIds_pairwise_lt (ops : List Op) :
    ∀ s : AppState, List.Pairwise (· < ·) (addedIds ops s) := by
  induction ops with
  | nil => intro s; simp [addedIds]
  | cons op ops ih =>
      intro s
      cases op with
      | add input =>
          simp only [addedIds]
          refine List.Pairwise.cons ?_ (ih (add_task input s).2)
          intro x hx
          have := addedIds_lower ops (add_task input s).2 x hx
          rw [add_task_NEXT_ID] at this
          rw [add_task_fst]
          omega
      | upd id input => simpa [addedIds] using ih (update_task id input s).2
      | del id => simpa [addedIds] using ih (delete_task id s).2

end StepLemmas

/-- C1: over any sequence of canister calls, the ids returned by the
`add_task` calls are pairwise distinct and strictly increasing in call
order (expressed as `List.Pairwise (· < ·)`), the `NEXT_ID` counter
never decreases across any call, and in particular `delete_task` leaves
the counter exactly unchanged, so an id is never reused. -/
theorem add_task_ids_strictly_increasing :
    (∀ (ops : List Op) (s : AppState),
        List.Pairwise (· < ·) (addedIds ops s)) ∧
    (∀ (op : Op) (s : AppState), s.NEXT_ID ≤ (stepOp op s).NEXT_ID) ∧
    (∀ (id : Nat) (s : AppState),
        (delete_task id s).2.NEXT_ID = s.NEXT_ID) := by
  refine ⟨fun ops s => addedIds_pairwise_lt ops s,
          fun op s => stepOp_NEXT_ID_mono op s,
          fun id s => delete_task_NEXT_ID id s⟩

/-- C2: `add_task` always succeeds; it returns the current counter value
as the new id, advances the counter by exactly one, and stores under the
new id a task with `is_completed = false`, `is_important` defaulted to
`false` when omitted, and the optional fields copied from the input. -/
theorem add_task_spec (input : TaskInput) (s : AppState) :
    (add_task input s).1 = s.NEXT_ID ∧
    (add_task input s).2.NEXT_ID = s.NEXT_ID + 1 ∧
    mapGet s.NEXT_ID (add_task input s).2.TASKS = some
      { id := s.NEXT_ID
        title := input.title
        is_completed := false
        is_important := input.is_important.getD false
        due_date := input.due_date
        reminder := input.reminder
        «repeat» := input.«repeat»
        assigned_to := input.assigned_to } := by
  refine ⟨rfl, rfl, ?_⟩
  simpa [add_task] using
    mapGet_mapInsert_self s.NEXT_ID _ s.TASKS

/-- Field-by-field description of `applyUpdate`: an absent patch field
leaves the task field unchanged, a present one overwrites it (for the
four double-option fields, `some none` therefore clears), and the id is
untouched. -/
theorem applyUpdate_fields (input : UpdateTaskInput) (task : Task) :
    (applyUpdate input task).id = task.id ∧
    (applyUpdate input task).title = input.title.getD task.title ∧
    (applyUpdate input task).is_completed
      = input.is_completed.getD task.is_completed ∧
    (applyUpdate input task).is_important
      = input.is_important.getD task.is_important ∧
    (applyUpdate input task).due_date = input.due_date.getD task.due_date ∧
    (applyUpdate input task).reminder = input.reminder.getD task.reminder ∧
    (applyUpdate input task).«repeat» = input.«repeat».getD task.«repeat» ∧
    (applyUpdate input task).assigned_to
      = input.assigned_to.getD task.assigned_to := by
  obtain ⟨t, c, i, d, r, rep, a⟩ := input
  cases t <;> cases c <;> cases i <;> cases d <;> cases r <;> cases rep <;>
    cases a <;> exact ⟨rfl, rfl, rfl, rfl, rfl, rfl, rfl, rfl⟩

/-- C3: `update_task` fails with the "Task not found" error exactly when
no task with the given id exists, and in that case the whole state (map
and counter) is returned unchanged: the lookup happens before any
mutation. -/
theorem update_task_not_found_iff (id : Nat) (input : UpdateTaskInput)
    (s : AppState) :
    ((update_task id input s).1 = Except.error "Task not found" ↔
        mapGet id s.TASKS = none) ∧
    (mapGet id s.TASKS = none → (update_task id input s).2 = s) := by
  cases h : mapGet id s.TASKS <;> simp [update_task, h]

/-- Witness for C3 at a concrete input: in the initial state no task 0
exists, so updating it fails and changes nothing. -/
theorem update_task_not_found_iff_witness :
    (update_task 0 emptyUpdate initState).1 = Except.error "Task not found" ∧
    (update_task 0 emptyUpdate initState).2 = initState :=
  ⟨(update_task_not_found_iff 0 emptyUpdate initState).1.mpr rfl,
   (update_task_not_found_iff 0 emptyUpdate initState).2 rfl⟩

/-- C4: for an existing task, `update_task` stores the patched task under
the same id, and the patch acts field by field: absent leaves the field
unchanged, `some none` on a clearable field clears it, `some v` sets it
(`Option.getD` expresses all three cases at once); the id is never
changed. -/
theorem update_task_patch_semantics (id : Nat) (input : UpdateTaskInput)
    (s : AppState) (task : Task) (h : mapGet id s.TASKS = some task) :
    mapGet id (update_task id input s).2.TASKS
      = some (applyUpdate input task) ∧
    (applyUpdate input task).id = task.id ∧
    (applyUpdate input task).title = input.title.getD task.title ∧
    (applyUpdate input task).is_completed
      = input.is_completed.getD task.is_completed ∧
    (applyUpdate input task).is_important
      = input.is_important.getD task.is_important ∧
    (applyUpdate input task).due_date = input.due_date.getD task.due_date ∧
    (applyUpdate input task).reminder = input.reminder.getD task.reminder ∧
    (applyUpdate input task).«repeat» = input.«repeat».getD task.«repeat» ∧
    (applyUpdate input task).assigned_to
      = input.assigned_to.getD task.assigned_to := by
  refine ⟨?_, applyUpdate_fields input task⟩
  simp [update_task, h, mapGet_mapInsert_self]

/-- Example task stored under id 0, used by concrete witnesses. -/
def exTask : Task :=
  { id := 0, title := "Buy milk", is_completed := false,
    is_important := false, due_date := some 5, reminder := none,
    «repeat» := none, assigned_to := none }

/-- Example state holding `exTask` under key 0. -/
def exState : AppState := { TASKS := [(0, exTask)], NEXT_ID := 1 }

/-- Example patch: complete the task and clear its due date. -/
def exPatch : UpdateTaskInput :=
  { title := none, is_completed := some true, is_important := none,
    due_date := some none, reminder := none, «repeat» := none,
    assigned_to := none }

/-- Witness for C4 at a concrete input: patching the stored task 0 with
`exPatch` stores the patched task, which cleared the due date and kept
the id. -/
theorem update_task_patch_semantics_witness :
    mapGet 0 (update_task 0 exPatch exState).2.TASKS
      = some (applyUpdate exPatch exTask) ∧
    (applyUpdate exPatch exTask).id = exTask.id ∧
    (applyUpdate exPatch exTask).due_date = none :=
  ⟨(update_task_patch_semantics 0 exPatch exState exTask rfl).1,
   (update_task_patch_semantics 0 exPatch exState exTask rfl).2.1,
   (update_task_patch_semantics 0 exPatch exState exTask rfl).2.2.2.2.2.1⟩

/-- C5: for an existing task, an update whose patch omits every field
succeeds and returns the state completely unchanged: the task, every
other task and the counter are as before. -/
theorem update_task_empty_patch (id : Nat) (s : AppState) (task : Task)
    (h : mapGet id s.TASKS = some task) :
    update_task id emptyUpdate s = (Except.ok (), s) := by
  have happ : applyUpdate emptyUpdate task = task := rfl
  simp only [update_task, h, happ, mapInsert_same id task s.TASKS h]

/-- Witness for C5 at a concrete input: the empty patch on stored task 0
returns success and the state unchanged. -/
theorem update_task_empty_patch_witness :
    update_task 0 emptyUpdate exState = (Except.ok (), exState) :=
  update_task_empty_patch 0 exState exTask rfl

theorem delete_task_TASKS (id : Nat) (s : AppState) :
    (delete_task id s).2.TASKS = mapRemove id s.TASKS := by
  cases h : (mapGet id s.TASKS).isNone <;> simp [delete_task, h]

theorem delete_task_fst_of_none (id : Nat) (s : AppState)
    (h : mapGet id s.TASKS = none) :
    (delete_task id s).1 = Except.error "Task not found" := by
  simp [delete_task, h]

theorem mapGet_mem (k : Nat) (m : TaskMap) (v : Task)
    (h : mapGet k m = some v) : (k, v) ∈ m := by
  induction m with
  | nil => simp [mapGet] at h
  | cons p rest ih =>
      obtain ⟨k', v'⟩ := p
      by_cases hk : k = k'
      · subst hk
        simp [mapGet] at h
        simp [h]
      · simp [mapGet, hk] at h
        simp [ih h]

/-- Second example task, stored under id 1 in `exState2`. -/
def exTask1 : Task :=
  { id := 1, title := "Pay rent", is_completed := false,
    is_important := true, due_date := none, reminder := none,
    «repeat» := none, assigned_to := none }

/-- Example state holding `exTask` under key 0 and `exTask1` under
key 1. -/
def exState2 : AppState :=
  { TASKS := [(0, exTask), (1, exTask1)], NEXT_ID := 2 }

/-- C6: `delete_task` fails with the "Task not found" error exactly when
no task with the given id exists, in which case the state is unchanged;
otherwise it removes exactly the entry with that id, every other id is
untouched, the id no longer appears in `get_all_tasks` (given the
key-equals-id invariant), and any subsequent `update_task` or
`delete_task` on that id fails with the same error. -/
theorem delete_task_spec (id : Nat) (s : AppState) :
    ((delete_task id s).1 = Except.error "Task not found" ↔
        mapGet id s.TASKS = none) ∧
    (mapGet id s.TASKS = none → (delete_task id s).2 = s) ∧
    mapGet id (delete_task id s).2.TASKS = none ∧
    (∀ j, j ≠ id →
        mapGet j (delete_task id s).2.TASKS = mapGet j s.TASKS) ∧
    (WF s → ∀ t ∈ get_all_tasks (delete_task id s).2, t.id ≠ id) ∧
    (∀ input, (update_task id input (delete_task id s).2).1
        = Except.error "Task not found") ∧
    (delete_task id (delete_task id s).2).1
        = Except.error "Task not found" := by
  have hT : (delete_task id s).2.TASKS = mapRemove id s.TASKS :=
    delete_task_TASKS id s
  have hnone : mapGet id (delete_task id s).2.TASKS = none := by
    rw [hT]
    exact mapGet_mapRemove_self id s.TASKS
  refine ⟨?_, ?_, hnone, ?_, ?_, ?_, ?_⟩
  · cases h : mapGet id s.TASKS <;> simp [delete_task, h]
  · intro h
    simp [delete_task, h, mapRemove_of_not_mem id s.TASKS h]
  · intro j hj
    rw [hT]
    exact mapGet_mapRemove_ne id j s.TASKS hj
  · intro hwf t ht
    rw [get_all_tasks, hT] at ht
    simp only [values, mapRemove, List.mem_map, List.mem_filter] at ht
    obtain ⟨⟨k, v⟩, ⟨hmem, hne⟩, hvt⟩ := ht
    have hkv := hwf (k, v) hmem
    simp only [decide_eq_true_eq] at hne
    intro hcontra
    apply hne
    rw [← hvt] at hcontra
    simp only at hkv
    rw [hkv] at hcontra
    exact hcontra
  · intro input
    simp [update_task, hnone]
  · exact delete_task_fst_of_none id (delete_task id s).2 hnone

/-- Witness for C6 at concrete inputs: deleting the missing id 5 from the
initial state leaves it unchanged, and after deleting id 0 from a
two-task state the surviving task does not carry id 0. -/
theorem delete_task_spec_witness :
    (delete_task 5 initState).2 = initState ∧ exTask1.id ≠ 0 :=
  ⟨(delete_task_spec 5 initState).2.1 rfl,
   (delete_task_spec 0 exState2).2.2.2.2.1 (by decide) exTask1 (by decide)⟩

/-- C7: `get_today_tasks` returns exactly the stored tasks whose due date
is present and lies in the inclusive window
`[now - now % 86400, now - now % 86400 + 86399]`, where `now` is the
clock value in nanoseconds divided by 1000000000; tasks with no due date
are excluded. -/
theorem get_today_tasks_spec (time_ns : Nat) (s : AppState) (task : Task) :
    task ∈ get_today_tasks time_ns s ↔
      task ∈ values s.TASKS ∧
      ∃ d, task.due_date = some d ∧
        time_ns / 1000000000 - time_ns / 1000000000 % 86400 ≤ d ∧
        d ≤ time_ns / 1000000000 - time_ns / 1000000000 % 86400 + 86399 := by
  simp only [get_today_tasks, List.mem_filter]
  cases h : task.due_date <;> simp [h]

/-- C8: `get_planned_tasks` returns exactly the stored tasks whose due
date is present and strictly greater than the current time in seconds; a
task due exactly at the current second is excluded; and the today/planned
filters overlap: in some state a task is returned by both. -/
theorem get_planned_tasks_spec :
    (∀ (time_ns : Nat) (s : AppState) (task : Task),
        task ∈ get_planned_tasks time_ns s ↔
          task ∈ values s.TASKS ∧
          ∃ d, task.due_date = some d ∧ time_ns / 1000000000 < d) ∧
    (∀ (time_ns : Nat) (s : AppState) (task : Task),
        task.due_date = some (time_ns / 1000000000) →
          task ∉ get_planned_tasks time_ns s) ∧
    (∃ (time_ns : Nat) (s : AppState) (task : Task),
        task ∈ get_today_tasks time_ns s ∧
        task ∈ get_planned_tasks time_ns s) := by
  refine ⟨?_, ?_, ⟨0, exState, exTask, by decide, by decide⟩⟩
  · intro time_ns s task
    simp only [get_planned_tasks, List.mem_filter]
    cases h : task.due_date <;> simp [h]
  · intro time_ns s task h hmem
    simp only [get_planned_tasks, List.mem_filter, h] at hmem
    simp at hmem

/-- Task due exactly at second 0, used by the C8 witness. -/
def planTask : Task :=
  { id := 7, title := "now", is_completed := false, is_important := false,
    due_date := some 0, reminder := none, «repeat» := none,
    assigned_to := none }

/-- Witness for C8 at a concrete input: a task due exactly at the current
second (time 0) is not planned. -/
theorem get_planned_tasks_spec_witness :
    planTask ∉ get_planned_tasks 0 exState :=
  get_planned_tasks_spec.2.1 0 exState planTask (by decide)

/-- C9: for every state and clock value, `count_today_tasks` equals the
length of the `get_today_tasks` result: the duplicated day-window logic
is equivalent. -/
theorem count_today_tasks_eq_length (time_ns : Nat) (s : AppState) :
    count_today_tasks time_ns s = (get_today_tasks time_ns s).length := rfl

theorem WF_mapInsert (k : Nat) (v : Task) (m : TaskMap)
    (hwf : ∀ p ∈ m, p.2.id = p.1) (hv : v.id = k) :
    ∀ p ∈ mapInsert k v m, p.2.id = p.1 := by
  induction m with
  | nil =>
      intro p hp
      simp [mapInsert] at hp
      simp [hp, hv]
  | cons q rest ih =>
      obtain ⟨k', v'⟩ := q
      intro p hp
      by_cases hk : k = k'
      · subst hk
        simp [mapInsert] at hp
        rcases hp with hp | hp
        · simp [hp, hv]
        · exact hwf p (List.mem_cons_of_mem _ hp)
      · simp [mapInsert, hk] at hp
        rcases hp with hp | hp
        · exact hwf p (by simp [hp])
        · exact ih (fun q hq => hwf q (List.mem_cons_of_mem _ hq)) p hp

/-- C10: every mutating call preserves the invariant that each task is
stored under the key equal to its own id: `add_task` inserts the task
under the id it wrote into it, `update_task` cannot change the id (the
patch has no id field), and `delete_task` only removes entries. -/
theorem stepOp_preserves_WF (op : Op) (s : AppState) (h : WF s) :
    WF (stepOp op s) := by
  cases op with
  | add input =>
      intro p hp
      simp only [stepOp, add_task] at hp
      exact WF_mapInsert s.NEXT_ID _ s.TASKS h rfl p hp
  | upd id input =>
      cases hmg : mapGet id s.TASKS with
      | none =>
          intro p hp
          simp only [stepOp, update_task, hmg] at hp
          exact h p hp
      | some task =>
          intro p hp
          simp only [stepOp, update_task, hmg] at hp
          have hid : task.id = id := h (id, task) (mapGet_mem id s.TASKS task hmg)
          refine WF_mapInsert id _ s.TASKS h ?_ p hp
          rw [(applyUpdate_fields input task).1, hid]
  | del id =>
      intro p hp
      rw [stepOp, delete_task_TASKS] at hp
      exact h p (List.mem_of_mem_filter hp)

/-- Example create input used by the C10 witness. -/
def exInput : TaskInput :=
  { title := "Buy milk", is_important := none, due_date := some 5,
    reminder := none, «repeat» := none, assigned_to := none }

/-- Witness for C10 at a concrete input: adding a task to the initial
state (whose invariant holds trivially) preserves the invariant. -/
theorem stepOp_preserves_WF_witness :
    WF (stepOp (Op.add exInput) initState) :=
  stepOp_preserves_WF (Op.add exInput) initState (by decide)

end Todo
